import Mathlib

/-!
Shallow embedding of the GatoLang LSP server's validation pipeline
(src/server/src/server.ts).  Pure functions model the path arithmetic,
the diagnostic mapping and the orchestration; external effects (the
filesystem writes, the gatoc subprocess, JSON parsing, the event-loop
timers) enter as explicit oracle parameters or as a logged state
transition system.
-/

/-! String primitives, defined structurally over the character list so
that every concrete instance evaluates inside the kernel. Each mirrors
the like-named JS string or Node helper it stands for. -/

/-- Prefix test on strings, as String.prototype.startsWith. -/
def strStartsWith (s pre : String) : Bool := pre.data.isPrefixOf s.data

/-- Suffix test on strings, as String.prototype.endsWith. -/
def strEndsWith (s suf : String) : Bool := suf.data.reverse.isPrefixOf s.data.reverse

/-- Drop of the first n characters of a string. -/
def strDrop (s : String) (n : Nat) : String := String.mk (s.data.drop n)

/-- Drop of the last n characters of a string. -/
def strDropRight (s : String) (n : Nat) : String :=
  String.mk (s.data.take (s.data.length - n))

/-- Character count of a string. -/
def strLength (s : String) : Nat := s.data.length

/-- Splitting of a character list on a separator character; the first
argument accumulates the current piece in reverse. -/
def splitOnCharAux (c : Char) : List Char → List Char → List (List Char)
  | acc, [] => [acc.reverse]
  | acc, x :: xs =>
      if x = c then acc.reverse :: splitOnCharAux c [] xs
      else splitOnCharAux c (x :: acc) xs

/-- Splitting of a string on a separator character, as splitOn with a
one-character separator. -/
def splitOnChar (c : Char) (s : String) : List String :=
  (splitOnCharAux c [] s.data).map String.mk

/-- Interleaving of a separator between string pieces. -/
def strIntercalate (sep : String) : List String → String
  | [] => ""
  | [x] => x
  | x :: y :: xs => x ++ sep ++ strIntercalate sep (y :: xs)

/-- Removal of leading whitespace characters. -/
def trimLeftChars : List Char → List Char
  | [] => []
  | c :: cs => if c.isWhitespace then trimLeftChars cs else c :: cs

/-- Whitespace trim at both ends, as String.prototype.trim. -/
def strTrim (s : String) : String :=
  String.mk ((trimLeftChars ((trimLeftChars s.data).reverse)).reverse)

/-! Path model: Node's posix path functions, restricted to the shapes
the server produces (absolute document paths, separator-free temp file
names). -/

/-- Model of path.isAbsolute for POSIX paths. -/
def isAbsolute (p : String) : Bool := strStartsWith p "/"

/-- Segment normalization used by path.resolve: drops empty and dot
segments and lets a dot-dot segment pop the previous one (a dot-dot at
the root is dropped, as for absolute POSIX paths). The first argument
accumulates the kept segments in reverse. -/
def normSegs : List String → List String → List String
  | acc, [] => acc.reverse
  | acc, "" :: rest => normSegs acc rest
  | acc, "." :: rest => normSegs acc rest
  | acc, ".." :: rest => normSegs (acc.drop 1) rest
  | acc, seg :: rest => normSegs (seg :: acc) rest

/-- Normalization of an absolute path string into its canonical form. -/
def resolveAbs (p : String) : String :=
  "/" ++ strIntercalate "/" (normSegs [] (splitOnChar (Char.ofNat 47) p))

/-- One step of path.resolve's right-to-left scan, folded from the
left: an absolute argument restarts the accumulated path. -/
def resolveStep (acc p : String) : String :=
  if isAbsolute p then p else acc ++ "/" ++ p

/-- Model of path.resolve: cwd stands for the process working
directory that Node prepends when no argument is absolute. -/
def pathResolve (cwd : String) (parts : List String) : String :=
  resolveAbs (parts.foldl resolveStep cwd)

/-- Model of path.dirname for the paths reaching it here. -/
def dirname (p : String) : String :=
  match (splitOnChar (Char.ofNat 47) p).dropLast with
  | [] => "."
  | [""] => "/"
  | segs => strIntercalate "/" segs

/-- Model of path.basename without a suffix argument. -/
def pathBasename (p : String) : String :=
  ((splitOnChar (Char.ofNat 47) p).getLast?).getD ""

/-- Model of path.extname: the suffix of the base name from its last
dot, empty when there is no dot or only a leading one. -/
def extname (p : String) : String :=
  let b := pathBasename p
  match splitOnChar (Char.ofNat 46) b with
  | [] => ""
  | [_] => ""
  | ["", _] => ""
  | parts => "." ++ (parts.getLast?).getD ""

/-- Model of path.basename with a suffix argument: the suffix is
stripped when the base name ends with it without being equal to it. -/
def basenameExt (p ext : String) : String :=
  let b := pathBasename p
  if ext ≠ "" ∧ b ≠ ext ∧ strEndsWith b ext then strDropRight b (strLength ext) else b

/-- Model of path.join for a directory and a separator-free file
name. -/
def pathJoin (a b : String) : String :=
  if strEndsWith a "/" then a ++ b else a ++ "/" ++ b

/-- Model of url.pathToFileURL for plain absolute POSIX paths
(percent-encoding of special characters is not needed here). -/
def pathToFileURL (p : String) : String := "file://" ++ p

/-- Model of uriToPath (server.ts): fileURLToPath succeeds exactly on
file scheme URIs and otherwise the caught exception yields null. -/
def uriToPath (uri : String) : Option String :=
  if strStartsWith uri "file://" then some (strDrop uri 7) else none

/-! Data model: the wire structures of server.ts. -/

/-- A zero-based line and character position. -/
structure Pos where
  line : Nat
  character : Nat
deriving DecidableEq, Repr

/-- The GatocRange interface of server.ts. -/
structure GatocRange where
  start : Pos
  stop : Pos
deriving DecidableEq, Repr

/-- The GatocDiagnostic interface of server.ts; code and range are
optional fields of the JSON payload. -/
structure GatocDiagnostic where
  file : String
  severity : String
  message : String
  code : Option String
  range : Option GatocRange
deriving DecidableEq, Repr

/-- The GatocResponse interface of server.ts; the diagnostics field is
optional because the code defends a missing one with a null-coalesced
empty list. -/
structure GatocResponse where
  version : Int
  ok : Bool
  diagnostics : Option (List GatocDiagnostic)
deriving DecidableEq, Repr

/-- The LSP severity tiers used by the server. -/
inductive DiagnosticSeverity where
  | error
  | warning
  | information
  | hint
deriving DecidableEq, Repr

/-- An editor-native diagnostic as built by the server. -/
structure Diagnostic where
  range : GatocRange
  severity : DiagnosticSeverity
  message : String
  code : Option String
deriving DecidableEq, Repr

/-- A sendDiagnostics notification: target URI and its full list. -/
structure Publication where
  uri : String
  diagnostics : List Diagnostic
deriving DecidableEq, Repr

/-! Association lists model the JS Map (and, via the key list, the JS
Set): get finds the first binding, set replaces in place keeping the
insertion position and otherwise appends, erase removes the binding. -/

/-- Lookup in an association list, as Map.prototype.get. -/
def alGet {α : Type} : List (String × α) → String → Option α
  | [], _ => none
  | (k, v) :: rest, key => if k = key then some v else alGet rest key

/-- Update of an association list, as Map.prototype.set. -/
def alSet {α : Type} : List (String × α) → String → α → List (String × α)
  | [], key, v => [(key, v)]
  | (k, w) :: rest, key, v =>
      if k = key then (k, v) :: rest else (k, w) :: alSet rest key v

/-- Removal from an association list, as Map.prototype.delete. -/
def alErase {α : Type} : List (String × α) → String → List (String × α)
  | [], _ => []
  | (k, w) :: rest, key => if k = key then rest else (k, w) :: alErase rest key

/-- Membership test, as Map.prototype.has. -/
def alHas {α : Type} (m : List (String × α)) (key : String) : Bool :=
  (alGet m key).isSome

/-! The diagnostic mapper (server.ts lines 134 to 186). -/

/-- Translation of severityFromString: warning and info map to their
tiers and anything else, error included, defaults to Error. -/
def severityFromString (value : String) : DiagnosticSeverity :=
  match value with
  | "warning" => DiagnosticSeverity.warning
  | "info" => DiagnosticSeverity.information
  | _ => DiagnosticSeverity.error

/-- Translation of convertDiagnostic: a missing range defaults to the
single-character span at the document start. -/
def convertDiagnostic (diag : GatocDiagnostic) : Diagnostic :=
  { range := diag.range.getD { start := { line := 0, character := 0 },
                               stop := { line := 0, character := 1 } },
    severity := severityFromString diag.severity,
    message := diag.message,
    code := diag.code }

/-- Translation of normalizeDiagFile: an empty (falsy) or sentinel
file becomes the fallback, an absolute one is kept, a relative one is
resolved against the fallback's directory. -/
def normalizeDiagFile (cwd : String) (file fallback : String) : String :=
  if file = "" ∨ file = "unknown" then fallback
  else if isAbsolute file then file
  else pathResolve cwd [dirname fallback, file]

/-- The per-diagnostic target computation inside mapDiagnostics' loop:
a normalized reference that resolves to the temp file is remapped to
the document's resolved path. -/
def diagTarget (cwd tmpResolved docResolved : String) (diag : GatocDiagnostic) : String :=
  let resolvedFile := normalizeDiagFile cwd diag.file docResolved
  if pathResolve cwd [resolvedFile] = tmpResolved then docResolved else resolvedFile

/-- One iteration of mapDiagnostics' loop: the converted diagnostic is
pushed onto the target's list in the result map. -/
def mapStep (cwd tmpResolved docResolved : String)
    (result : List (String × List Diagnostic)) (diag : GatocDiagnostic) :
    List (String × List Diagnostic) :=
  let targetFile := diagTarget cwd tmpResolved docResolved diag
  alSet result targetFile ((alGet result targetFile).getD [] ++ [convertDiagnostic diag])

/-- Translation of mapDiagnostics: group converted diagnostics by
normalized target path, then make sure the document's own resolved
path is a key even when it got no diagnostics. -/
def mapDiagnostics (cwd : String) (response : GatocResponse) (tmpFile docPath : String) :
    List (String × List Diagnostic) :=
  let tmpResolved := pathResolve cwd [tmpFile]
  let docResolved := pathResolve cwd [docPath]
  let result := (response.diagnostics.getD []).foldl (mapStep cwd tmpResolved docResolved) []
  if alHas result docResolved then result else alSet result docResolved []

/-! The process invoker (server.ts lines 209 to 245). -/

/-- Translation of the close handler of runGatoc: the parse parameter
stands for the platform's JSON.parse composed with the cast to
GatocResponse, and exitCode for the code argument the callback
receives but never reads (the TS arrow function binds no parameter for
it). Empty trimmed standard output fails with the trimmed standard
error when that is non-empty and with the fixed fallback text
otherwise; a parse failure is wrapped as invalid JSON. -/
def runGatocClose (parse : String → Except String GatocResponse) (exitCode : Int)
    (stdout stderr : String) : Except String GatocResponse :=
  let trimmed := strTrim stdout
  if trimmed = "" then
    Except.error (if strTrim stderr = "" then "gatoc produced no output" else strTrim stderr)
  else
    match parse trimmed with
    | Except.ok r => Except.ok r
    | Except.error m => Except.error ("invalid gatoc JSON: " ++ m)

/-! The temp file writer (server.ts lines 193 to 207). -/

/-- The deterministic temp file name of writeTempFile, built from the
document's base name, the process id and a timestamp. -/
def tempFileName (docPath : String) (pid timestamp : Nat) : String :=
  ".gatolang-lsp-" ++ basenameExt docPath (extname docPath) ++ "-" ++
    toString pid ++ "-" ++ toString timestamp ++ ".gw"

/-- Translation of writeTempFile: the write parameter stands for
fs.writeFile on a path and contents. The preferred location is the
document's own directory; on failure the same file name goes into the
system temp directory, and a failure there propagates. -/
def writeTempFile (write : String → String → Except String Unit) (tmpdir : String)
    (pid timestamp : Nat) (docPath contents : String) : Except String String :=
  let fileName := tempFileName docPath pid timestamp
  let preferredDir := dirname docPath
  let preferredPath := pathJoin preferredDir fileName
  match write preferredPath contents with
  | Except.ok _ => Except.ok preferredPath
  | Except.error _ =>
    let fallbackPath := pathJoin tmpdir fileName
    match write fallbackPath contents with
    | Except.ok _ => Except.ok fallbackPath
    | Except.error e => Except.error e

/-! Server state and the scheduler (server.ts lines 21 to 85): the
event loop is modelled as a logged transition system, where the runs
field records each triggered validation run with its start time and
the document snapshot it uses. -/

/-- A document as the transport hands it over: its URI and the text
snapshot getText returns. -/
structure Document where
  uri : String
  text : String
deriving DecidableEq, Repr

/-- A pending debounce timer: the captured document and the absolute
time at which setTimeout fires it. -/
structure PendingTimer where
  doc : Document
  deadline : Nat
deriving DecidableEq, Repr

/-- The server's mutable state: the clock, the pendingValidation map,
the lastFilesByDoc map and the log of triggered validation runs. -/
structure ServerState where
  now : Nat
  pending : List (String × PendingTimer)
  lastFilesByDoc : List (String × List String)
  runs : List (Nat × Document)
deriving DecidableEq, Repr

/-- The debounce delay constant of server.ts. -/
def debounceMs : Nat := 300

/-- Translation of scheduleValidation: clearTimeout on the existing
timer plus setTimeout plus Map.set collapse to replacing the URI's
binding with a fresh timer due in debounceMs. -/
def scheduleValidation (st : ServerState) (document : Document) : ServerState :=
  let timer : PendingTimer := { doc := document, deadline := st.now + debounceMs }
  { st with pending := alSet st.pending document.uri timer }

/-- A content-change event at time t, which the server handles by
calling scheduleValidation. -/
def onContentChanged (st : ServerState) (t : Nat) (document : Document) : ServerState :=
  scheduleValidation { st with now := t } document

/-- Translation of validateNow: cancel any pending timer for the URI
and trigger a validation run immediately. -/
def validateNow (st : ServerState) (document : Document) : ServerState :=
  { st with pending := alErase st.pending document.uri,
            runs := st.runs ++ [(st.now, document)] }

/-- The firing of a pending timer at its deadline: the callback first
deletes its own map entry and then triggers the validation run with
the captured document. A URI without a pending timer fires nothing. -/
def fireTimer (st : ServerState) (uri : String) : ServerState :=
  match alGet st.pending uri with
  | none => st
  | some tm =>
    { st with now := tm.deadline,
              pending := alErase st.pending uri,
              runs := st.runs ++ [(tm.deadline, tm.doc)] }

/-- A burst of content-change events for one URI, each carrying its
time and the document text current at that call. -/
def burst (st : ServerState) (u : String) (changes : List (Nat × String)) : ServerState :=
  changes.foldl (fun s c => onContentChanged s c.1 { uri := u, text := c.2 }) st

/-! The orchestrator (server.ts lines 87 to 132). -/

/-- The environment a validation run interacts with: the working
directory and temp directory, the process id and clock reading used in
the temp file name, the fs.writeFile oracle and the whole runGatoc
promise as an oracle from the temp file path to its outcome. -/
structure ValidationEnv where
  cwd : String
  tmpdir : String
  pid : Nat
  timestamp : Nat
  write : String → String → Except String Unit
  gatoc : String → Except String GatocResponse

/-- The synthetic diagnostic the catch block of validateDocument
builds from a failure message. -/
def errorDiagnostic (message : String) : Diagnostic :=
  { range := { start := { line := 0, character := 0 },
               stop := { line := 0, character := 1 } },
    severity := DiagnosticSeverity.error,
    message := message,
    code := none }

/-- Translation of validateDocument: a URI with no filesystem path is
a no-op; a failure of the temp write or of the gatoc run publishes the
single synthetic diagnostic on the document's own URI; a success
publishes every mapped file's list, clears the previously published
files that are absent now, and stores the new file set. The temp file
unlink of the finally block has no observable effect here. -/
def validateDocument (env : ValidationEnv) (st : ServerState) (document : Document) :
    ServerState × List Publication :=
  match uriToPath document.uri with
  | none => (st, [])
  | some docPath =>
    match writeTempFile env.write env.tmpdir env.pid env.timestamp docPath document.text with
    | Except.error e =>
        (st, [{ uri := document.uri, diagnostics := [errorDiagnostic e] }])
    | Except.ok tmpFile =>
      match env.gatoc tmpFile with
      | Except.error e =>
          (st, [{ uri := document.uri, diagnostics := [errorDiagnostic e] }])
      | Except.ok response =>
        let diagnosticsByFile := mapDiagnostics env.cwd response tmpFile docPath
        let currentFiles := diagnosticsByFile.map Prod.fst
        let pubs := diagnosticsByFile.map
          (fun e => { uri := pathToFileURL e.1, diagnostics := e.2 })
        let clears :=
          match alGet st.lastFilesByDoc document.uri with
          | none => []
          | some previousFiles =>
            (previousFiles.filter (fun fp => !(currentFiles.contains fp))).map
              (fun fp => { uri := pathToFileURL fp, diagnostics := ([] : List Diagnostic) })
        ({ st with lastFilesByDoc := alSet st.lastFilesByDoc document.uri currentFiles },
         pubs ++ clears)

/-! Association list lemmas shared by the claim proofs. -/

/-- Lookup after an update: the updated key gets the new value and the
others are untouched. -/
theorem alGet_alSet {α : Type} (m : List (String × α)) (k k' : String) (v : α) :
    alGet (alSet m k v) k' = if k' = k then some v else alGet m k' := by
  induction m with
  | nil =>
    by_cases h : k' = k
    · simp [alSet, alGet, h]
    · have h2 : ¬ k = k' := fun hh => h hh.symm
      simp [alSet, alGet, h, h2]
  | cons hd tl ih =>
    obtain ⟨k0, w⟩ := hd
    by_cases h0 : k0 = k
    · subst h0
      by_cases h : k' = k0
      · simp [alSet, alGet, h]
      · have h2 : ¬ k0 = k' := fun hh => h hh.symm
        simp [alSet, alGet, h, h2]
    · by_cases h1 : k0 = k'
      · have h2 : ¬ k' = k := fun hh => h0 (h1.trans hh)
        simp [alSet, alGet, h0, h1, h2]
      · simp [alSet, alGet, h0, h1, ih]

/-- A successful lookup certifies membership. -/
theorem alGet_mem {α : Type} (m : List (String × α)) (k : String) (v : α)
    (h : alGet m k = some v) : (k, v) ∈ m := by
  induction m with
  | nil => simp [alGet] at h
  | cons hd tl ih =>
    obtain ⟨k0, w⟩ := hd
    by_cases h0 : k0 = k
    · subst h0
      simp [alGet] at h
      simp [h]
    · simp [alGet, h0] at h
      simp [ih h]

/-- A key is listed exactly when its lookup succeeds. -/
theorem mem_keys_iff {α : Type} (m : List (String × α)) (k : String) :
    k ∈ m.map Prod.fst ↔ (alGet m k).isSome := by
  induction m with
  | nil => simp [alGet]
  | cons hd tl ih =>
    obtain ⟨k0, w⟩ := hd
    by_cases h0 : k0 = k
    · subst h0; simp [alGet]
    · have hne : ¬ k = k0 := fun h => h0 h.symm
      simp [alGet, h0, hne, ih]

/-- The key list after an update: unchanged for a present key,
extended at the end for a fresh one. -/
theorem keys_alSet {α : Type} (m : List (String × α)) (k : String) (v : α) :
    (alSet m k v).map Prod.fst =
      if (alGet m k).isSome then m.map Prod.fst else m.map Prod.fst ++ [k] := by
  induction m with
  | nil => simp [alSet, alGet]
  | cons hd tl ih =>
    obtain ⟨k0, w⟩ := hd
    by_cases h0 : k0 = k
    · subst h0; simp [alSet, alGet]
    · by_cases hs : (alGet tl k).isSome <;> simp [alSet, alGet, h0, hs, ih]

/-- Updates keep the key list duplicate-free. -/
theorem nodup_keys_alSet {α : Type} (m : List (String × α)) (k : String) (v : α)
    (h : (m.map Prod.fst).Nodup) : ((alSet m k v).map Prod.fst).Nodup := by
  rw [keys_alSet]
  by_cases hs : (alGet m k).isSome
  · simpa [hs]
  · have hk : k ∉ m.map Prod.fst := by
      rw [mem_keys_iff]; simpa using hs
    simp [hs, List.nodup_append, h, hk]

/-- Removal shortens the key list to a sublist. -/
theorem keys_alErase_sublist {α : Type} (m : List (String × α)) (k : String) :
    ((alErase m k).map Prod.fst).Sublist (m.map Prod.fst) := by
  induction m with
  | nil => simp [alErase]
  | cons hd tl ih =>
    obtain ⟨k0, w⟩ := hd
    by_cases h0 : k0 = k
    · subst h0
      simp [alErase]
    · simp [alErase, h0]
      exact ih

/-- Removal keeps the key list duplicate-free. -/
theorem nodup_keys_alErase {α : Type} (m : List (String × α)) (k : String)
    (h : (m.map Prod.fst).Nodup) : ((alErase m k).map Prod.fst).Nodup :=
  h.sublist (keys_alErase_sublist m k)

/-- With duplicate-free keys, removal really removes the binding. -/
theorem alGet_alErase_self {α : Type} (m : List (String × α)) (k : String)
    (h : (m.map Prod.fst).Nodup) : alGet (alErase m k) k = none := by
  induction m with
  | nil => simp [alErase, alGet]
  | cons hd tl ih =>
    obtain ⟨k0, w⟩ := hd
    simp at h
    by_cases h0 : k0 = k
    · subst h0
      have : k0 ∉ tl.map Prod.fst := by
        intro hmem
        exact absurd (List.mem_map.1 hmem) (by simpa using h.1)
      simp [alErase]
      cases hs : alGet tl k0 with
      | none => rfl
      | some v =>
        exact absurd ((mem_keys_iff tl k0).2 (by simp [hs])) this
    · simp [alErase, alGet, h0, ih h.2]

/-! Lemmas about the diagnostic grouping fold. -/

/-- The step places the converted diagnostic at its target key. -/
theorem mem_after_mapStep (cwd tR dR : String) (m : List (String × List Diagnostic))
    (d : GatocDiagnostic) :
    convertDiagnostic d ∈ (alGet (mapStep cwd tR dR m d) (diagTarget cwd tR dR d)).getD [] := by
  unfold mapStep
  rw [alGet_alSet]
  simp

/-- The step never drops a diagnostic already placed at any key. -/
theorem mapStep_preserves_mem (cwd tR dR : String) (m : List (String × List Diagnostic))
    (d : GatocDiagnostic) (k : String) (x : Diagnostic)
    (h : x ∈ (alGet m k).getD []) :
    x ∈ (alGet (mapStep cwd tR dR m d) k).getD [] := by
  unfold mapStep
  rw [alGet_alSet]
  by_cases hk : k = diagTarget cwd tR dR d
  · subst hk
    rw [if_pos rfl, Option.getD_some]
    exact List.mem_append_left _ h
  · rwa [if_neg hk]

/-- The whole fold never drops a diagnostic already placed. -/
theorem foldl_mapStep_preserves_mem (cwd tR dR : String) (ds : List GatocDiagnostic)
    (m : List (String × List Diagnostic)) (k : String) (x : Diagnostic)
    (h : x ∈ (alGet m k).getD []) :
    x ∈ (alGet (ds.foldl (mapStep cwd tR dR) m) k).getD [] := by
  induction ds generalizing m with
  | nil => exact h
  | cons d ds ih =>
    exact ih (mapStep cwd tR dR m d) (mapStep_preserves_mem cwd tR dR m d k x h)

/-- Every diagnostic of the list ends up at its target key. -/
theorem mem_foldl_mapStep (cwd tR dR : String) (ds : List GatocDiagnostic)
    (m : List (String × List Diagnostic)) (d : GatocDiagnostic) (h : d ∈ ds) :
    convertDiagnostic d ∈ (alGet (ds.foldl (mapStep cwd tR dR) m) (diagTarget cwd tR dR d)).getD [] := by
  induction ds generalizing m with
  | nil => cases h
  | cons d0 ds ih =>
    cases h with
    | head =>
      exact foldl_mapStep_preserves_mem cwd tR dR ds _ _ _ (mem_after_mapStep cwd tR dR m d)
    | tail _ h' => exact ih (mapStep cwd tR dR m d0) h'

/-- The final doc-key guard of mapDiagnostics never drops a placed
diagnostic. -/
theorem mem_ensureDoc (m : List (String × List Diagnostic)) (dR k : String) (x : Diagnostic)
    (h : x ∈ (alGet m k).getD []) :
    x ∈ (alGet (if alHas m dR then m else alSet m dR []) k).getD [] := by
  by_cases hh : alHas m dR
  · rwa [if_pos hh]
  · rw [if_neg hh, alGet_alSet]
    by_cases hk : k = dR
    · subst hk
      have hnone : alGet m k = none := by
        unfold alHas at hh
        exact Option.not_isSome_iff_eq_none.1 (by simpa using hh)
      rw [hnone] at h
      simp at h
    · rwa [if_neg hk]

/-- C1: for every CompilerResult, temp-file path and document path, a
diagnostic whose file reference resolves (after normalization) to the
temp file's path is grouped and published under the original
document's resolved path, and a diagnostic naming an unrelated
absolute path is published under that path unchanged. -/
theorem mapDiagnostics_remap (cwd : String) (response : GatocResponse)
    (tmpFile docPath : String) (diag : GatocDiagnostic)
    (hmem : diag ∈ response.diagnostics.getD []) :
    (pathResolve cwd [normalizeDiagFile cwd diag.file (pathResolve cwd [docPath])] =
        pathResolve cwd [tmpFile] →
      convertDiagnostic diag ∈
        (alGet (mapDiagnostics cwd response tmpFile docPath) (pathResolve cwd [docPath])).getD [])
    ∧ (isAbsolute diag.file = true →
        pathResolve cwd [diag.file] ≠ pathResolve cwd [tmpFile] →
      convertDiagnostic diag ∈
        (alGet (mapDiagnostics cwd response tmpFile docPath) diag.file).getD []) := by
  constructor
  · intro h
    have htarget :
        diagTarget cwd (pathResolve cwd [tmpFile]) (pathResolve cwd [docPath]) diag =
          pathResolve cwd [docPath] := by
      unfold diagTarget
      simp [h]
    have hm := mem_foldl_mapStep cwd (pathResolve cwd [tmpFile]) (pathResolve cwd [docPath])
      (response.diagnostics.getD []) [] diag hmem
    rw [htarget] at hm
    simp only [mapDiagnostics]
    exact mem_ensureDoc _ _ _ _ hm
  · intro habs hne
    have h1 : diag.file ≠ "" := by
      intro hh
      rw [hh] at habs
      exact absurd habs (by decide)
    have h2 : diag.file ≠ "unknown" := by
      intro hh
      rw [hh] at habs
      exact absurd habs (by decide)
    have hnorm : normalizeDiagFile cwd diag.file (pathResolve cwd [docPath]) = diag.file := by
      unfold normalizeDiagFile
      rw [if_neg (by simp [h1, h2]), if_pos habs]
    have htarget :
        diagTarget cwd (pathResolve cwd [tmpFile]) (pathResolve cwd [docPath]) diag =
          diag.file := by
      unfold diagTarget
      rw [hnorm, if_neg hne]
    have hm := mem_foldl_mapStep cwd (pathResolve cwd [tmpFile]) (pathResolve cwd [docPath])
      (response.diagnostics.getD []) [] diag hmem
    rw [htarget] at hm
    simp only [mapDiagnostics]
    exact mem_ensureDoc _ _ _ _ hm

/-- Witness for C1 at a concrete result holding one diagnostic against
the temp file and one against an unrelated absolute path. -/
theorem mapDiagnostics_remap_witness :
    convertDiagnostic (GatocDiagnostic.mk "/proj/.gatolang-lsp-foo-12-34.gw" "error" "boom" none none) ∈
      (alGet (mapDiagnostics "/cwd"
          (GatocResponse.mk 1 false (some
            [GatocDiagnostic.mk "/proj/.gatolang-lsp-foo-12-34.gw" "error" "boom" none none,
             GatocDiagnostic.mk "/other/a.gw" "warning" "warn" none none]))
          "/proj/.gatolang-lsp-foo-12-34.gw" "/proj/foo.gw")
        (pathResolve "/cwd" ["/proj/foo.gw"])).getD []
    ∧ convertDiagnostic (GatocDiagnostic.mk "/other/a.gw" "warning" "warn" none none) ∈
      (alGet (mapDiagnostics "/cwd"
          (GatocResponse.mk 1 false (some
            [GatocDiagnostic.mk "/proj/.gatolang-lsp-foo-12-34.gw" "error" "boom" none none,
             GatocDiagnostic.mk "/other/a.gw" "warning" "warn" none none]))
          "/proj/.gatolang-lsp-foo-12-34.gw" "/proj/foo.gw")
        "/other/a.gw").getD [] :=
  ⟨(mapDiagnostics_remap "/cwd"
      (GatocResponse.mk 1 false (some
        [GatocDiagnostic.mk "/proj/.gatolang-lsp-foo-12-34.gw" "error" "boom" none none,
         GatocDiagnostic.mk "/other/a.gw" "warning" "warn" none none]))
      "/proj/.gatolang-lsp-foo-12-34.gw" "/proj/foo.gw"
      (GatocDiagnostic.mk "/proj/.gatolang-lsp-foo-12-34.gw" "error" "boom" none none)
      (by decide)).1 (by decide),
   (mapDiagnostics_remap "/cwd"
      (GatocResponse.mk 1 false (some
        [GatocDiagnostic.mk "/proj/.gatolang-lsp-foo-12-34.gw" "error" "boom" none none,
         GatocDiagnostic.mk "/other/a.gw" "warning" "warn" none none]))
      "/proj/.gatolang-lsp-foo-12-34.gw" "/proj/foo.gw"
      (GatocDiagnostic.mk "/other/a.gw" "warning" "warn" none none)
      (by decide)).2 (by decide) (by decide)⟩

/-- C6: the file reference of a reported diagnostic is normalized by
substituting the document's resolved path for an absent or sentinel
reference, keeping an absolute reference as it is, resolving a
relative one against the document's directory; and in the spec's
concrete scenario a diagnostic with file unknown and a supplied range
is published on the document's path at exactly that range. -/
theorem normalizeDiagFile_spec (cwd file fallback : String) :
    (file = "" ∨ file = "unknown" → normalizeDiagFile cwd file fallback = fallback)
    ∧ (isAbsolute file = true → file ≠ "" → file ≠ "unknown" →
        normalizeDiagFile cwd file fallback = file)
    ∧ (isAbsolute file = false → file ≠ "" → file ≠ "unknown" →
        normalizeDiagFile cwd file fallback = pathResolve cwd [dirname fallback, file])
    ∧ mapDiagnostics cwd
        (GatocResponse.mk 1 false (some [GatocDiagnostic.mk "unknown" "error" "unexpected token"
          none (some (GatocRange.mk (Pos.mk 0 4) (Pos.mk 0 9)))]))
        "/proj/.gatolang-lsp-foo-12-34.gw" "/proj/foo.gw" =
      [("/proj/foo.gw", [Diagnostic.mk (GatocRange.mk (Pos.mk 0 4) (Pos.mk 0 9))
          DiagnosticSeverity.error "unexpected token" none])] := by
  refine ⟨?_, ?_, ?_, rfl⟩
  · intro h
    simp [normalizeDiagFile, h]
  · intro habs h1 h2
    simp [normalizeDiagFile, h1, h2, habs]
  · intro habs h1 h2
    simp [normalizeDiagFile, h1, h2, habs]

/-- Witness for C6: the sentinel, absolute and relative cases at
concrete inputs. -/
theorem normalizeDiagFile_spec_witness :
    normalizeDiagFile "/c" "unknown" "/proj/foo.gw" = "/proj/foo.gw"
    ∧ normalizeDiagFile "/c" "/abs/b.gw" "/proj/foo.gw" = "/abs/b.gw"
    ∧ normalizeDiagFile "/c" "sub/b.gw" "/proj/foo.gw" =
        pathResolve "/c" [dirname "/proj/foo.gw", "sub/b.gw"] :=
  ⟨(normalizeDiagFile_spec "/c" "unknown" "/proj/foo.gw").1 (Or.inr rfl),
   (normalizeDiagFile_spec "/c" "/abs/b.gw" "/proj/foo.gw").2.1 (by decide) (by decide) (by decide),
   (normalizeDiagFile_spec "/c" "sub/b.gw" "/proj/foo.gw").2.2.1 (by decide) (by decide) (by decide)⟩

/-- C5: the exit code is never inspected; when trimmed standard
output is empty the run fails with the trimmed standard error text if
non-empty and with the fixed no-output message otherwise; a JSON parse
failure fails with a message stating the output was invalid JSON and
including the parser's message. -/
theorem runGatocClose_spec (parse : String → Except String GatocResponse)
    (code code' : Int) (stdout stderr : String) :
    runGatocClose parse code stdout stderr = runGatocClose parse code' stdout stderr
    ∧ (strTrim stdout = "" → strTrim stderr ≠ "" →
        runGatocClose parse code stdout stderr = Except.error (strTrim stderr))
    ∧ (strTrim stdout = "" → strTrim stderr = "" →
        runGatocClose parse code stdout stderr = Except.error "gatoc produced no output")
    ∧ (∀ m, strTrim stdout ≠ "" → parse (strTrim stdout) = Except.error m →
        runGatocClose parse code stdout stderr =
          Except.error ("invalid gatoc JSON: " ++ m)) := by
  refine ⟨rfl, ?_, ?_, ?_⟩
  · intro h1 h2
    simp [runGatocClose, h1, h2]
  · intro h1 h2
    simp [runGatocClose, h1, h2]
  · intro m h1 h2
    simp [runGatocClose, h1, h2]

/-- Witness for C5 at concrete streams: empty output with noisy and
with silent standard error, and unparseable output. -/
theorem runGatocClose_spec_witness :
    runGatocClose (fun _ => Except.error "mock") 0 " " " boom " =
      runGatocClose (fun _ => Except.error "mock") 1 " " " boom "
    ∧ runGatocClose (fun _ => Except.error "mock") 0 " " " boom " = Except.error "boom"
    ∧ runGatocClose (fun _ => Except.error "mock") 0 " " " " =
        Except.error "gatoc produced no output"
    ∧ runGatocClose (fun _ => Except.error "Unexpected token n") 0 "nonsense" "" =
        Except.error "invalid gatoc JSON: Unexpected token n" :=
  ⟨(runGatocClose_spec (fun _ => Except.error "mock") 0 1 " " " boom ").1,
   (runGatocClose_spec (fun _ => Except.error "mock") 0 1 " " " boom ").2.1 rfl (by decide),
   (runGatocClose_spec (fun _ => Except.error "mock") 0 1 " " " ").2.2.1 rfl rfl,
   (runGatocClose_spec (fun _ => Except.error "Unexpected token n") 0 1 "nonsense" "").2.2.2
     "Unexpected token n" (by decide) rfl⟩

/-- C7: the temp file is first written in the document's own
directory; if that write fails the same file name is written into the
system temp directory and that path is returned; if both writes fail
the second error propagates to the validation run. -/
theorem writeTempFile_spec (write : String → String → Except String Unit)
    (tmpdir : String) (pid ts : Nat) (docPath contents : String) :
    (write (pathJoin (dirname docPath) (tempFileName docPath pid ts)) contents = Except.ok () →
      writeTempFile write tmpdir pid ts docPath contents =
        Except.ok (pathJoin (dirname docPath) (tempFileName docPath pid ts)))
    ∧ (∀ e, write (pathJoin (dirname docPath) (tempFileName docPath pid ts)) contents =
          Except.error e →
        write (pathJoin tmpdir (tempFileName docPath pid ts)) contents = Except.ok () →
        writeTempFile write tmpdir pid ts docPath contents =
          Except.ok (pathJoin tmpdir (tempFileName docPath pid ts)))
    ∧ (∀ e e', write (pathJoin (dirname docPath) (tempFileName docPath pid ts)) contents =
          Except.error e →
        write (pathJoin tmpdir (tempFileName docPath pid ts)) contents = Except.error e' →
        writeTempFile write tmpdir pid ts docPath contents = Except.error e') := by
  refine ⟨?_, ?_, ?_⟩
  · intro h
    simp [writeTempFile, h]
  · intro e h1 h2
    simp [writeTempFile, h1, h2]
  · intro e e' h1 h2
    simp [writeTempFile, h1, h2]

/-- Witness for C7 with a write oracle that rejects exactly the
document-directory location. -/
theorem writeTempFile_spec_witness :
    writeTempFile
      (fun p _ => if p = "/proj/.gatolang-lsp-foo-1-2.gw" then Except.error "EACCES"
                  else Except.ok ())
      "/tmp" 1 2 "/proj/foo.gw" "text" =
      Except.ok (pathJoin "/tmp" (tempFileName "/proj/foo.gw" 1 2)) :=
  (writeTempFile_spec
    (fun p _ => if p = "/proj/.gatolang-lsp-foo-1-2.gw" then Except.error "EACCES"
                else Except.ok ())
    "/tmp" 1 2 "/proj/foo.gw" "text").2.1 "EACCES" rfl rfl

/-! Helper lemmas about the orchestrator. -/

/-- Reduction of a successful validation run to its published list and
stored file set. -/
theorem validateDocument_success_eq (env : ValidationEnv) (st : ServerState)
    (document : Document) (docPath tmpFile : String) (response : GatocResponse)
    (hpath : uriToPath document.uri = some docPath)
    (hwrite : writeTempFile env.write env.tmpdir env.pid env.timestamp docPath document.text =
      Except.ok tmpFile)
    (hgatoc : env.gatoc tmpFile = Except.ok response) :
    validateDocument env st document =
      (ServerState.mk st.now st.pending
        (alSet st.lastFilesByDoc document.uri
          ((mapDiagnostics env.cwd response tmpFile docPath).map Prod.fst)) st.runs,
       (mapDiagnostics env.cwd response tmpFile docPath).map
          (fun en => Publication.mk (pathToFileURL en.1) en.2) ++
       (match alGet st.lastFilesByDoc document.uri with
        | none => []
        | some previousFiles =>
          (previousFiles.filter (fun fp =>
            !(((mapDiagnostics env.cwd response tmpFile docPath).map Prod.fst).contains fp))).map
            (fun fp => Publication.mk (pathToFileURL fp) []))) := by
  simp [validateDocument, hpath, hwrite, hgatoc]

/-- The final guard of mapDiagnostics guarantees a binding for the
document's resolved path. -/
theorem ensureDoc_has (m : List (String × List Diagnostic)) (dR : String) :
    ∃ ds, alGet (if alHas m dR then m else alSet m dR []) dR = some ds := by
  by_cases h : alHas m dR = true
  · rw [if_pos h]
    unfold alHas at h
    obtain ⟨v, hv⟩ := Option.isSome_iff_exists.mp h
    exact ⟨v, hv⟩
  · rw [if_neg h]
    refine ⟨[], ?_⟩
    rw [alGet_alSet]
    simp

/-- The document's resolved path is always a key of the mapped
diagnostics. -/
theorem mapDiagnostics_has_doc (cwd : String) (response : GatocResponse)
    (tmpFile docPath : String) :
    ∃ ds, alGet (mapDiagnostics cwd response tmpFile docPath)
      (pathResolve cwd [docPath]) = some ds := by
  simp only [mapDiagnostics]
  exact ensureDoc_has _ _

/-- A result with no diagnostics maps to the single binding of the
document's resolved path to the empty list. -/
theorem mapDiagnostics_empty (cwd : String) (response : GatocResponse)
    (tmpFile docPath : String) (h : response.diagnostics.getD [] = []) :
    mapDiagnostics cwd response tmpFile docPath = [(pathResolve cwd [docPath], [])] := by
  simp only [mapDiagnostics, h]
  simp [alHas, alGet, alSet]

/-- The grouping fold only ever stores non-empty lists on top of a map
that only held non-empty lists. -/
theorem foldl_mapStep_values (cwd tR dR : String) (ds : List GatocDiagnostic)
    (m : List (String × List Diagnostic))
    (hm : ∀ k v, alGet m k = some v → v ≠ []) :
    ∀ k v, alGet (ds.foldl (mapStep cwd tR dR) m) k = some v → v ≠ [] := by
  induction ds generalizing m with
  | nil => exact hm
  | cons d ds ih =>
    refine ih _ ?_
    intro k v hv
    unfold mapStep at hv
    rw [alGet_alSet] at hv
    by_cases hk : k = diagTarget cwd tR dR d
    · rw [if_pos hk] at hv
      cases hv
      simp
    · rw [if_neg hk] at hv
      exact hm _ _ hv

/-- The final guard only ever adds an empty list at the document key. -/
theorem ensureDoc_values (m : List (String × List Diagnostic)) (dR : String)
    (hm : ∀ k v, alGet m k = some v → v ≠ []) :
    ∀ k v, alGet (if alHas m dR then m else alSet m dR []) k = some v →
      v ≠ [] ∨ k = dR := by
  intro k v hv
  by_cases h : alHas m dR = true
  · rw [if_pos h] at hv
    exact Or.inl (hm _ _ hv)
  · rw [if_neg h] at hv
    rw [alGet_alSet] at hv
    by_cases hk : k = dR
    · exact Or.inr hk
    · rw [if_neg hk] at hv
      exact Or.inl (hm _ _ hv)

/-- Every binding of the mapped diagnostics is non-empty except
possibly the document's own. -/
theorem mapDiagnostics_values (cwd : String) (response : GatocResponse)
    (tmpFile docPath : String) :
    ∀ k v, alGet (mapDiagnostics cwd response tmpFile docPath) k = some v →
      v ≠ [] ∨ k = pathResolve cwd [docPath] := by
  intro k v hv
  simp only [mapDiagnostics] at hv
  refine ensureDoc_values _ _ ?_ k v hv
  refine foldl_mapStep_values _ _ _ _ _ ?_
  intro k' v' h'
  simp [alGet] at h'

/-- C2: a validation run that fails during the temp-file write or
during the gatoc invocation (spawn failure, empty output and invalid
JSON all surface as a failed invocation outcome) publishes exactly one
synthetic diagnostic, on the document's own URI, with Error severity,
a range spanning a single character at the document start, and the
failure's description as its message. -/
theorem validateDocument_failure_single_diagnostic (env : ValidationEnv) (st : ServerState)
    (document : Document) (docPath : String) (e : String)
    (hpath : uriToPath document.uri = some docPath) :
    (writeTempFile env.write env.tmpdir env.pid env.timestamp docPath document.text =
        Except.error e →
      validateDocument env st document =
        (st, [Publication.mk document.uri
          [Diagnostic.mk (GatocRange.mk (Pos.mk 0 0) (Pos.mk 0 1))
            DiagnosticSeverity.error e none]]))
    ∧ (∀ tmpFile,
        writeTempFile env.write env.tmpdir env.pid env.timestamp docPath document.text =
          Except.ok tmpFile →
        env.gatoc tmpFile = Except.error e →
      validateDocument env st document =
        (st, [Publication.mk document.uri
          [Diagnostic.mk (GatocRange.mk (Pos.mk 0 0) (Pos.mk 0 1))
            DiagnosticSeverity.error e none]])) := by
  constructor
  · intro h
    simp [validateDocument, hpath, h, errorDiagnostic]
  · intro tmpFile h1 h2
    simp [validateDocument, hpath, h1, h2, errorDiagnostic]

/-- Witness for C2: a write failure and a spawn failure at concrete
inputs. -/
theorem validateDocument_failure_single_diagnostic_witness :
    validateDocument
      (ValidationEnv.mk "/c" "/tmp" 1 2 (fun _ _ => Except.error "EROFS: read-only")
        (fun _ => Except.ok (GatocResponse.mk 1 true (some []))))
      (ServerState.mk 0 [] [] []) (Document.mk "file:///proj/foo.gw" "txt") =
      (ServerState.mk 0 [] [] [], [Publication.mk "file:///proj/foo.gw"
        [Diagnostic.mk (GatocRange.mk (Pos.mk 0 0) (Pos.mk 0 1))
          DiagnosticSeverity.error "EROFS: read-only" none]])
    ∧ validateDocument
      (ValidationEnv.mk "/c" "/tmp" 1 2 (fun _ _ => Except.ok ())
        (fun _ => Except.error "failed to run gatoc: spawn gatoc ENOENT"))
      (ServerState.mk 0 [] [] []) (Document.mk "file:///proj/foo.gw" "txt") =
      (ServerState.mk 0 [] [] [], [Publication.mk "file:///proj/foo.gw"
        [Diagnostic.mk (GatocRange.mk (Pos.mk 0 0) (Pos.mk 0 1))
          DiagnosticSeverity.error "failed to run gatoc: spawn gatoc ENOENT" none]]) :=
  ⟨(validateDocument_failure_single_diagnostic
      (ValidationEnv.mk "/c" "/tmp" 1 2 (fun _ _ => Except.error "EROFS: read-only")
        (fun _ => Except.ok (GatocResponse.mk 1 true (some []))))
      (ServerState.mk 0 [] [] []) (Document.mk "file:///proj/foo.gw" "txt")
      "/proj/foo.gw" "EROFS: read-only" rfl).1 rfl,
   (validateDocument_failure_single_diagnostic
      (ValidationEnv.mk "/c" "/tmp" 1 2 (fun _ _ => Except.ok ())
        (fun _ => Except.error "failed to run gatoc: spawn gatoc ENOENT"))
      (ServerState.mk 0 [] [] []) (Document.mk "file:///proj/foo.gw" "txt")
      "/proj/foo.gw" "failed to run gatoc: spawn gatoc ENOENT" rfl).2
      "/proj/.gatolang-lsp-foo-1-2.gw" rfl rfl⟩

/-- C9: a failed validation run leaves the stored baseline of
previously published file paths untouched and clears nothing: every
publication of the failed run targets the document's own URI and
carries a non-empty list. -/
theorem validateDocument_failure_preserves_state (env : ValidationEnv) (st : ServerState)
    (document : Document) (docPath : String) (e : String)
    (hpath : uriToPath document.uri = some docPath) :
    (writeTempFile env.write env.tmpdir env.pid env.timestamp docPath document.text =
        Except.error e →
      (validateDocument env st document).1 = st
      ∧ ∀ p ∈ (validateDocument env st document).2,
          p.uri = document.uri ∧ p.diagnostics ≠ [])
    ∧ (∀ tmpFile,
        writeTempFile env.write env.tmpdir env.pid env.timestamp docPath document.text =
          Except.ok tmpFile →
        env.gatoc tmpFile = Except.error e →
      (validateDocument env st document).1 = st
      ∧ ∀ p ∈ (validateDocument env st document).2,
          p.uri = document.uri ∧ p.diagnostics ≠ []) := by
  constructor
  · intro h
    constructor
    · simp [validateDocument, hpath, h]
    · intro p hp
      simp [validateDocument, hpath, h] at hp
      simp [hp, errorDiagnostic]
  · intro tmpFile h1 h2
    constructor
    · simp [validateDocument, hpath, h1, h2]
    · intro p hp
      simp [validateDocument, hpath, h1, h2] at hp
      simp [hp, errorDiagnostic]

/-- Witness for C9: a parse failure with a previously stored baseline
for the same document and another file. -/
theorem validateDocument_failure_preserves_state_witness :
    (validateDocument
      (ValidationEnv.mk "/c" "/tmp" 1 2 (fun _ _ => Except.ok ())
        (fun _ => Except.error "invalid gatoc JSON: Unexpected token"))
      (ServerState.mk 7 [] [("file:///proj/foo.gw", ["/proj/foo.gw", "/other/b.gw"])] [])
      (Document.mk "file:///proj/foo.gw" "txt")).1 =
      ServerState.mk 7 [] [("file:///proj/foo.gw", ["/proj/foo.gw", "/other/b.gw"])] []
    ∧ ∀ p ∈ (validateDocument
      (ValidationEnv.mk "/c" "/tmp" 1 2 (fun _ _ => Except.ok ())
        (fun _ => Except.error "invalid gatoc JSON: Unexpected token"))
      (ServerState.mk 7 [] [("file:///proj/foo.gw", ["/proj/foo.gw", "/other/b.gw"])] [])
      (Document.mk "file:///proj/foo.gw" "txt")).2,
        p.uri = "file:///proj/foo.gw" ∧ p.diagnostics ≠ [] :=
  (validateDocument_failure_preserves_state
    (ValidationEnv.mk "/c" "/tmp" 1 2 (fun _ _ => Except.ok ())
      (fun _ => Except.error "invalid gatoc JSON: Unexpected token"))
    (ServerState.mk 7 [] [("file:///proj/foo.gw", ["/proj/foo.gw", "/other/b.gw"])] [])
    (Document.mk "file:///proj/foo.gw" "txt") "/proj/foo.gw"
    "invalid gatoc JSON: Unexpected token" rfl).2
    "/proj/.gatolang-lsp-foo-1-2.gw" rfl rfl

/-- C10: a validation run for a document whose URI has no filesystem
path is a complete no-op: the state, the pending timers and the stored
file sets are unchanged and nothing is published. -/
theorem validateDocument_no_path_noop (env : ValidationEnv) (st : ServerState)
    (document : Document) (h : uriToPath document.uri = none) :
    validateDocument env st document = (st, []) := by
  simp [validateDocument, h]

/-- Witness for C10 at a non-file URI. -/
theorem validateDocument_no_path_noop_witness :
    validateDocument
      (ValidationEnv.mk "/c" "/tmp" 1 2 (fun _ _ => Except.ok ())
        (fun _ => Except.ok (GatocResponse.mk 1 true (some []))))
      (ServerState.mk 3 [] [("untitled:x", ["/a"])] [])
      (Document.mk "untitled:x" "txt") =
      (ServerState.mk 3 [] [("untitled:x", ["/a"])] [], []) :=
  validateDocument_no_path_noop
    (ValidationEnv.mk "/c" "/tmp" 1 2 (fun _ _ => Except.ok ())
      (fun _ => Except.ok (GatocResponse.mk 1 true (some []))))
    (ServerState.mk 3 [] [("untitled:x", ["/a"])] [])
    (Document.mk "untitled:x" "txt") rfl

/-- C4: after a successful validation run the document's own resolved
path is published (with an empty list when the compiler reported
nothing), and every path of the previous run's stored set that is
absent from the new run's published paths receives an explicit
empty-diagnostics publication. -/
theorem validateDocument_publishes_and_clears (env : ValidationEnv) (st : ServerState)
    (document : Document) (docPath tmpFile : String) (response : GatocResponse)
    (hpath : uriToPath document.uri = some docPath)
    (hwrite : writeTempFile env.write env.tmpdir env.pid env.timestamp docPath document.text =
      Except.ok tmpFile)
    (hgatoc : env.gatoc tmpFile = Except.ok response) :
    (∃ ds, alGet (mapDiagnostics env.cwd response tmpFile docPath)
        (pathResolve env.cwd [docPath]) = some ds
      ∧ Publication.mk (pathToFileURL (pathResolve env.cwd [docPath])) ds ∈
          (validateDocument env st document).2)
    ∧ (response.diagnostics.getD [] = [] →
        Publication.mk (pathToFileURL (pathResolve env.cwd [docPath])) [] ∈
          (validateDocument env st document).2)
    ∧ (∀ prev, alGet st.lastFilesByDoc document.uri = some prev →
        ∀ fp ∈ prev,
          ((mapDiagnostics env.cwd response tmpFile docPath).map Prod.fst).contains fp = false →
          Publication.mk (pathToFileURL fp) [] ∈ (validateDocument env st document).2) := by
  have hval := validateDocument_success_eq env st document docPath tmpFile response
    hpath hwrite hgatoc
  refine ⟨?_, ?_, ?_⟩
  · obtain ⟨ds, hds⟩ := mapDiagnostics_has_doc env.cwd response tmpFile docPath
    refine ⟨ds, hds, ?_⟩
    rw [hval]
    apply List.mem_append_left
    exact List.mem_map_of_mem _ (alGet_mem _ _ _ hds)
  · intro h
    rw [hval]
    apply List.mem_append_left
    rw [mapDiagnostics_empty env.cwd response tmpFile docPath h]
    simp
  · intro prev hprev fp hfp hcont
    rw [hval]
    apply List.mem_append_right
    rw [hprev]
    refine List.mem_map_of_mem _ ?_
    refine List.mem_filter.2 ⟨hfp, ?_⟩
    show (!((mapDiagnostics env.cwd response tmpFile docPath).map Prod.fst).contains fp) = true
    rw [hcont]
    rfl

/-- Witness for C4: a run whose result names only another file, with a
baseline holding a now-stale third file; the document path and the
stale file both get publications. -/
theorem validateDocument_publishes_and_clears_witness :
    Publication.mk (pathToFileURL (pathResolve "/c" ["/proj/foo.gw"])) [] ∈
      (validateDocument
        (ValidationEnv.mk "/c" "/tmp" 1 2 (fun _ _ => Except.ok ())
          (fun _ => Except.ok (GatocResponse.mk 1 true (some []))))
        (ServerState.mk 0 [] [("file:///proj/foo.gw", ["/proj/foo.gw", "/other/b.gw"])] [])
        (Document.mk "file:///proj/foo.gw" "txt")).2
    ∧ Publication.mk (pathToFileURL "/other/b.gw") [] ∈
      (validateDocument
        (ValidationEnv.mk "/c" "/tmp" 1 2 (fun _ _ => Except.ok ())
          (fun _ => Except.ok (GatocResponse.mk 1 true (some []))))
        (ServerState.mk 0 [] [("file:///proj/foo.gw", ["/proj/foo.gw", "/other/b.gw"])] [])
        (Document.mk "file:///proj/foo.gw" "txt")).2 :=
  ⟨(validateDocument_publishes_and_clears
      (ValidationEnv.mk "/c" "/tmp" 1 2 (fun _ _ => Except.ok ())
        (fun _ => Except.ok (GatocResponse.mk 1 true (some []))))
      (ServerState.mk 0 [] [("file:///proj/foo.gw", ["/proj/foo.gw", "/other/b.gw"])] [])
      (Document.mk "file:///proj/foo.gw" "txt") "/proj/foo.gw"
      "/proj/.gatolang-lsp-foo-1-2.gw" (GatocResponse.mk 1 true (some []))
      rfl rfl rfl).2.1 rfl,
   (validateDocument_publishes_and_clears
      (ValidationEnv.mk "/c" "/tmp" 1 2 (fun _ _ => Except.ok ())
        (fun _ => Except.ok (GatocResponse.mk 1 true (some []))))
      (ServerState.mk 0 [] [("file:///proj/foo.gw", ["/proj/foo.gw", "/other/b.gw"])] [])
      (Document.mk "file:///proj/foo.gw" "txt") "/proj/foo.gw"
      "/proj/.gatolang-lsp-foo-1-2.gw" (GatocResponse.mk 1 true (some []))
      rfl rfl rfl).2.2 ["/proj/foo.gw", "/other/b.gw"] rfl "/other/b.gw"
      (by decide) (by decide)⟩

/-- Counterexample to C8 as stated: a successful clean run stores the
document's own resolved path in the published set although the run
attributed only an empty diagnostic list to it, so the stored set is
not the set of paths with non-empty diagnostics. -/
theorem publishedSet_counterexample :
    alGet (validateDocument
        (ValidationEnv.mk "/c" "/tmp" 1 2 (fun _ _ => Except.ok ())
          (fun _ => Except.ok (GatocResponse.mk 1 true (some []))))
        (ServerState.mk 0 [] [] [])
        (Document.mk "file:///proj/foo.gw" "x")).1.lastFilesByDoc "file:///proj/foo.gw" =
      some ["/proj/foo.gw"]
    ∧ mapDiagnostics "/c" (GatocResponse.mk 1 true (some []))
        "/proj/.gatolang-lsp-foo-1-2.gw" "/proj/foo.gw" = [("/proj/foo.gw", [])] := by
  exact ⟨by decide, by decide⟩

/-- C8 (amended): after a successful validation run the stored
per-document set is exactly the run's published path list, which
consists of the paths with non-empty diagnostics plus always the
document's own resolved path, possibly with an empty list. -/
theorem publishedSet_amended (env : ValidationEnv) (st : ServerState)
    (document : Document) (docPath tmpFile : String) (response : GatocResponse)
    (hpath : uriToPath document.uri = some docPath)
    (hwrite : writeTempFile env.write env.tmpdir env.pid env.timestamp docPath document.text =
      Except.ok tmpFile)
    (hgatoc : env.gatoc tmpFile = Except.ok response) :
    alGet (validateDocument env st document).1.lastFilesByDoc document.uri =
      some ((mapDiagnostics env.cwd response tmpFile docPath).map Prod.fst)
    ∧ pathResolve env.cwd [docPath] ∈
        (mapDiagnostics env.cwd response tmpFile docPath).map Prod.fst
    ∧ ∀ fp ∈ (mapDiagnostics env.cwd response tmpFile docPath).map Prod.fst,
        fp = pathResolve env.cwd [docPath] ∨
        ∃ ds, alGet (mapDiagnostics env.cwd response tmpFile docPath) fp = some ds ∧
          ds ≠ [] := by
  have hval := validateDocument_success_eq env st document docPath tmpFile response
    hpath hwrite hgatoc
  refine ⟨?_, ?_, ?_⟩
  · rw [hval]
    simp only []
    rw [alGet_alSet]
    simp
  · obtain ⟨ds, hds⟩ := mapDiagnostics_has_doc env.cwd response tmpFile docPath
    rw [mem_keys_iff]
    simp [hds]
  · intro fp hfp
    have hsome := (mem_keys_iff _ _).1 hfp
    obtain ⟨v, hv⟩ := Option.isSome_iff_exists.mp hsome
    rcases mapDiagnostics_values env.cwd response tmpFile docPath fp v hv with h | h
    · exact Or.inr ⟨v, hv, h⟩
    · exact Or.inl h

/-- Witness for the amended C8 at a concrete run with one foreign-file
diagnostic. -/
theorem publishedSet_amended_witness :
    alGet (validateDocument
        (ValidationEnv.mk "/c" "/tmp" 1 2 (fun _ _ => Except.ok ())
          (fun _ => Except.ok (GatocResponse.mk 1 false
            (some [GatocDiagnostic.mk "/other/a.gw" "error" "m" none none]))))
        (ServerState.mk 0 [] [] [])
        (Document.mk "file:///proj/foo.gw" "x")).1.lastFilesByDoc "file:///proj/foo.gw" =
      some ((mapDiagnostics "/c" (GatocResponse.mk 1 false
          (some [GatocDiagnostic.mk "/other/a.gw" "error" "m" none none]))
        "/proj/.gatolang-lsp-foo-1-2.gw" "/proj/foo.gw").map Prod.fst) :=
  (publishedSet_amended
    (ValidationEnv.mk "/c" "/tmp" 1 2 (fun _ _ => Except.ok ())
      (fun _ => Except.ok (GatocResponse.mk 1 false
        (some [GatocDiagnostic.mk "/other/a.gw" "error" "m" none none]))))
    (ServerState.mk 0 [] [] [])
    (Document.mk "file:///proj/foo.gw" "x") "/proj/foo.gw"
    "/proj/.gatolang-lsp-foo-1-2.gw"
    (GatocResponse.mk 1 false (some [GatocDiagnostic.mk "/other/a.gw" "error" "m" none none]))
    rfl rfl rfl).1

/-! Helper lemmas about the scheduler. -/

/-- A burst of content changes triggers no run, leaves the published
baselines alone and keeps the pending key list duplicate-free. -/
theorem burst_frame (u : String) (changes : List (Nat × String)) (st : ServerState) :
    (burst st u changes).runs = st.runs
    ∧ (burst st u changes).lastFilesByDoc = st.lastFilesByDoc
    ∧ ((st.pending.map Prod.fst).Nodup → ((burst st u changes).pending.map Prod.fst).Nodup) := by
  induction changes generalizing st with
  | nil => exact ⟨rfl, rfl, id⟩
  | cons c cs ih =>
    have hstep : burst st u (c :: cs) = burst (onContentChanged st c.1 (Document.mk u c.2)) u cs :=
      rfl
    have h := ih (onContentChanged st c.1 (Document.mk u c.2))
    refine ⟨?_, ?_, ?_⟩
    · rw [hstep, h.1]
      rfl
    · rw [hstep, h.2.1]
      rfl
    · intro hnd
      rw [hstep]
      exact h.2.2 (nodup_keys_alSet _ _ _ hnd)

/-- After a burst ending in the call c, the URI's pending timer holds
exactly c's snapshot with deadline c's time plus the debounce delay. -/
theorem burst_last (u : String) (init : List (Nat × String)) (c : Nat × String)
    (st : ServerState) :
    alGet (burst st u (init ++ [c])).pending u =
      some (PendingTimer.mk (Document.mk u c.2) (c.1 + debounceMs)) := by
  unfold burst
  rw [List.foldl_append]
  show alGet (onContentChanged (burst st u init) c.1 (Document.mk u c.2)).pending u = _
  unfold onContentChanged scheduleValidation
  rw [alGet_alSet]
  simp

/-- C3: at most one pending debounce timer exists per URI at any time
(the pending key list stays duplicate-free), a content-change burst
within less than the debounce delay leaves exactly one timer holding
the last call's snapshot and triggers no run, the timer fire removes
its own entry and triggers the single coalesced run with the last
call's text, and an open or save cancels the pending timer and
triggers one immediate run. -/
theorem scheduler_debounce_coalesces (st : ServerState) (u : String)
    (init : List (Nat × String)) (c : Nat × String)
    (hnodup : (st.pending.map Prod.fst).Nodup)
    (hwindow : ∀ d ∈ init ++ [c], d.1 ≤ c.1 ∧ c.1 - d.1 < debounceMs) :
    debounceMs = 300
    ∧ (∀ d ∈ init ++ [c], c.1 < d.1 + debounceMs)
    ∧ alGet (burst st u (init ++ [c])).pending u =
        some (PendingTimer.mk (Document.mk u c.2) (c.1 + debounceMs))
    ∧ ((burst st u (init ++ [c])).pending.map Prod.fst).Nodup
    ∧ (burst st u (init ++ [c])).runs = st.runs
    ∧ (fireTimer (burst st u (init ++ [c])) u).runs =
        st.runs ++ [(c.1 + debounceMs, Document.mk u c.2)]
    ∧ alGet (fireTimer (burst st u (init ++ [c])) u).pending u = none
    ∧ (∀ s : ServerState, ∀ d : Document, (s.pending.map Prod.fst).Nodup →
        alGet (validateNow s d).pending d.uri = none
        ∧ (validateNow s d).runs = s.runs ++ [(s.now, d)]) := by
  have hpend := burst_last u init c st
  have hframe := burst_frame u (init ++ [c]) st
  have hnd : ((burst st u (init ++ [c])).pending.map Prod.fst).Nodup := hframe.2.2 hnodup
  refine ⟨rfl, ?_, hpend, hnd, hframe.1, ?_, ?_, ?_⟩
  · intro d hd
    have h := hwindow d hd
    omega
  · unfold fireTimer
    rw [hpend]
    simp [hframe.1]
  · unfold fireTimer
    rw [hpend]
    simp only []
    exact alGet_alErase_self _ _ hnd
  · intro s d hnd'
    exact ⟨alGet_alErase_self _ _ hnd', rfl⟩

/-- Witness for C3: three rapid edits coalesce into one pending timer
and, on fire, exactly one run carrying the last text. -/
theorem scheduler_debounce_coalesces_witness :
    alGet (burst (ServerState.mk 0 [] [] []) "file:///p.gw"
        ([(0, "a"), (100, "ab")] ++ [(200, "abc")])).pending "file:///p.gw" =
      some (PendingTimer.mk (Document.mk "file:///p.gw" "abc") (200 + debounceMs))
    ∧ (burst (ServerState.mk 0 [] [] []) "file:///p.gw"
        ([(0, "a"), (100, "ab")] ++ [(200, "abc")])).runs = []
    ∧ (fireTimer (burst (ServerState.mk 0 [] [] []) "file:///p.gw"
        ([(0, "a"), (100, "ab")] ++ [(200, "abc")])) "file:///p.gw").runs =
      [] ++ [(200 + debounceMs, Document.mk "file:///p.gw" "abc")] :=
  ⟨(scheduler_debounce_coalesces (ServerState.mk 0 [] [] []) "file:///p.gw"
      [(0, "a"), (100, "ab")] (200, "abc") (by decide) (by decide)).2.2.1,
   (scheduler_debounce_coalesces (ServerState.mk 0 [] [] []) "file:///p.gw"
      [(0, "a"), (100, "ab")] (200, "abc") (by decide) (by decide)).2.2.2.2.1,
   (scheduler_debounce_coalesces (ServerState.mk 0 [] [] []) "file:///p.gw"
      [(0, "a"), (100, "ab")] (200, "abc") (by decide) (by decide)).2.2.2.2.2.1⟩
